import Mathlib

/-!
Verification of the instamatic calibration engine and cRED acquisition loop.

The definitions below are shallow embeddings of the Python sources:
* `src/instamatic/calibrate/calibrate_stage_lowmag.py` (CalibStage coordinate
  transforms),
* `src/instamatic/calibrate/calibrate_stagematrix.py` (outlier filter,
  `calibrate_stage`, `calibrate_stage_all`),
* `src/instamatic/experiments/cred/experiment.py` (auto-tracking cRED
  acquisition loop).

Machine floats are modelled as exact rationals (`ℚ`) except where a square
root forces real numbers (`ℝ`); the float NaN produced by a zero standard
deviation is modelled by an explicit branch, mirroring the fact that every
IEEE comparison against NaN is false.
-/

namespace Instamatic

/-! ### CalibStage (calibrate_stage_lowmag.py)

2×2 matrices over ℚ.  Here `vecMul v m` is the numpy call `np.dot(v, m)` for a row
vector `v`, the only orientation used by `CalibStage`.  `inv2` is
`np.linalg.inv` specialised to 2×2 (adjugate over determinant). -/

structure M2 where
  a : ℚ
  b : ℚ
  c : ℚ
  d : ℚ
deriving DecidableEq

def det (m : M2) : ℚ := m.a * m.d - m.b * m.c

def inv2 (m : M2) : M2 :=
  ⟨m.d / det m, -m.b / det m, -m.c / det m, m.a / det m⟩

def vecMul (v : ℚ × ℚ) (m : M2) : ℚ × ℚ :=
  (v.1 * m.a + v.2 * m.c, v.1 * m.b + v.2 * m.d)

/-- Embeds `CalibStage.__init__`: rotation matrix, translation and the absolute
stage position at which the reference image was captured. -/
structure CalibStage where
  rotation : M2
  translation : ℚ × ℚ
  reference_position : ℚ × ℚ

/-- The broadcast scalar `1024` (fixed image half-size offset). -/
def center : ℚ × ℚ := (1024, 1024)

/-- Embeds `CalibStage._reference_setting_to_pixelcoord`:
`px = px_ref - np.dot((image_pos - reference_pos) - t, inv(r))`. -/
def reference_setting_to_pixelcoord (cal : CalibStage) (px_ref image_pos : ℚ × ℚ) : ℚ × ℚ :=
  px_ref - vecMul (image_pos - cal.reference_position - cal.translation) (inv2 cal.rotation)

/-- Embeds `CalibStage._pixelcoord_to_reference_setting`:
`px_ref = np.dot((image_pos - reference_pos) - t, inv(r)) + px`. -/
def pixelcoord_to_reference_setting (cal : CalibStage) (px image_pos : ℚ × ℚ) : ℚ × ℚ :=
  vecMul (image_pos - cal.reference_position - cal.translation) (inv2 cal.rotation) + px

/-- Embeds `CalibStage._pixelcoord_to_stagepos`:
`stagepos = np.dot(px_ref - 1024, r) + t + reference_pos`. -/
def pixelcoord_to_stagepos (cal : CalibStage) (px image_pos : ℚ × ℚ) : ℚ × ℚ :=
  vecMul (pixelcoord_to_reference_setting cal px image_pos - center) cal.rotation
    + cal.translation + cal.reference_position

/-- Embeds `CalibStage._stagepos_to_pixelcoord`:
`px_ref = np.dot(stagepos - t - reference_pos, inv(r)) + 1024` followed by
`_reference_setting_to_pixelcoord`. -/
def stagepos_to_pixelcoord (cal : CalibStage) (stagepos image_pos : ℚ × ℚ) : ℚ × ℚ :=
  reference_setting_to_pixelcoord cal
    (vecMul (stagepos - cal.translation - cal.reference_position) (inv2 cal.rotation) + center)
    image_pos

lemma vecMul_inv2_vecMul (m : M2) (h : det m ≠ 0) (v : ℚ × ℚ) :
    vecMul (vecMul v (inv2 m)) m = v := by
  obtain ⟨a, b, c, d⟩ := m
  obtain ⟨x, y⟩ := v
  simp only [vecMul, inv2, det] at *
  have : a * d - b * c ≠ 0 := h
  refine Prod.ext ?_ ?_ <;> field_simp <;> ring

lemma vecMul_vecMul_inv2 (m : M2) (h : det m ≠ 0) (v : ℚ × ℚ) :
    vecMul (vecMul v m) (inv2 m) = v := by
  obtain ⟨a, b, c, d⟩ := m
  obtain ⟨x, y⟩ := v
  simp only [vecMul, inv2, det] at *
  have : a * d - b * c ≠ 0 := h
  refine Prod.ext ?_ ?_ <;> field_simp <;> ring

/-- C1: for an invertible rotation matrix the pixel↔stage conversions of
`CalibStage` are mutual inverses (exactly, in the exact-rational model of
float arithmetic), in both composition orders, for every translation,
reference position, image position and payload. -/
theorem pixelcoord_stagepos_roundtrip (cal : CalibStage) (h : det cal.rotation ≠ 0)
    (image_pos p : ℚ × ℚ) :
    stagepos_to_pixelcoord cal (pixelcoord_to_stagepos cal p image_pos) image_pos = p ∧
    pixelcoord_to_stagepos cal (stagepos_to_pixelcoord cal p image_pos) image_pos = p := by
  set w : ℚ × ℚ :=
    vecMul (image_pos - cal.reference_position - cal.translation) (inv2 cal.rotation) with hw
  constructor
  · show reference_setting_to_pixelcoord cal _ _ = p
    rw [reference_setting_to_pixelcoord, pixelcoord_to_stagepos,
      pixelcoord_to_reference_setting, ← hw]
    have h1 :
        vecMul (w + p - center) cal.rotation + cal.translation + cal.reference_position -
            cal.translation - cal.reference_position = vecMul (w + p - center) cal.rotation := by
      abel
    rw [h1, vecMul_vecMul_inv2 cal.rotation h]
    abel
  · rw [pixelcoord_to_stagepos, pixelcoord_to_reference_setting, stagepos_to_pixelcoord,
      reference_setting_to_pixelcoord, ← hw]
    have h1 :
        p - cal.translation - cal.reference_position = p - cal.translation -
          cal.reference_position := rfl
    have h2 : w + (vecMul (p - cal.translation - cal.reference_position) (inv2 cal.rotation) +
        center - w) - center =
        vecMul (p - cal.translation - cal.reference_position) (inv2 cal.rotation) := by
      abel
    rw [h2, vecMul_inv2_vecMul cal.rotation h]
    abel

/-- Witness for C1 at a concrete invertible calibration. -/
theorem pixelcoord_stagepos_roundtrip_witness :
    det (⟨1, 2, 3, 4⟩ : M2) ≠ 0 ∧
    stagepos_to_pixelcoord ⟨⟨1, 2, 3, 4⟩, (5, 6), (7, 8)⟩
      (pixelcoord_to_stagepos ⟨⟨1, 2, 3, 4⟩, (5, 6), (7, 8)⟩ (11, 12) (9, 10)) (9, 10) =
      (11, 12) :=
  ⟨by norm_num [det],
    (pixelcoord_stagepos_roundtrip ⟨⟨1, 2, 3, 4⟩, (5, 6), (7, 8)⟩ (by norm_num [det]) (9, 10)
      (11, 12)).1⟩

/-! ### Outlier filter (calibrate_stagematrix.py, `get_outlier_filter`)

`get_outlier_filter(data, threshold=2.0)` computes
`zscore = stats.zscore(np.linalg.norm(data, axis=1))` and returns
`abs(zscore) < threshold` elementwise.  `stats.zscore` uses the population
standard deviation (`ddof=0`).  When that standard deviation is zero every
z-score is the float NaN `0.0/0.0`, and every IEEE comparison against NaN is
false; the explicit branch below models exactly that. -/

noncomputable section OutlierFilter

/-- Euclidean norm of one 2-vector sample (`np.linalg.norm(data, axis=1)`). -/
def normv (v : ℝ × ℝ) : ℝ := Real.sqrt (v.1 ^ 2 + v.2 ^ 2)

/-- Arithmetic mean of a list (`np.mean`). -/
def meanL (xs : List ℝ) : ℝ := xs.sum / xs.length

/-- Population standard deviation (`ddof=0`, the `scipy.stats.zscore`
default). -/
def stdL (xs : List ℝ) : ℝ :=
  Real.sqrt ((xs.map (fun x => (x - meanL xs) ^ 2)).sum / xs.length)

/-- The elementwise keep-test `abs(zscore) < threshold`, with the NaN case
(zero standard deviation) made explicit. -/
def zsel (xs : List ℝ) (threshold : ℝ) : List Bool :=
  if stdL xs = 0 then xs.map (fun _ => false)
  else xs.map (fun x => decide (|(x - meanL xs) / stdL xs| < threshold))

/-- Embeds `get_outlier_filter(data, threshold)`: `True` entries are kept. -/
def get_outlier_filter (data : List (ℝ × ℝ)) (threshold : ℝ) : List Bool :=
  zsel (data.map normv) threshold

/-- The removed-sample count the function reports:
`len(sel) - np.sum(sel)`. -/
def removed_count (sel : List Bool) : ℕ := sel.length - sel.count true

/-- Modelled from the claim of C4 (spec side, for comparison only): reject
exactly the samples whose absolute z-score exceeds the threshold, keep all
others. -/
def zsel_claim (xs : List ℝ) (threshold : ℝ) : List Bool :=
  xs.map (fun x => decide (¬ |(x - meanL xs) / stdL xs| > threshold))

/-- Spec-side variant of `get_outlier_filter`, following the claim words of
C4. -/
def get_outlier_filter_claim (data : List (ℝ × ℝ)) (threshold : ℝ) : List Bool :=
  zsel_claim (data.map normv) threshold

end OutlierFilter

lemma count_true_add_count_false (l : List Bool) :
    l.count true + l.count false = l.length := by
  induction l with
  | nil => simp
  | cons a t ih => cases a <;> simp [List.count_cons] <;> omega

lemma sum_eq_of_all_eq (xs : List ℝ) (c : ℝ) (h : ∀ x ∈ xs, x = c) :
    xs.sum = xs.length * c := by
  induction xs with
  | nil => simp
  | cons a t ih =>
    have ha : a = c := h a (by simp)
    have ht : t.sum = t.length * c := ih fun x hx => h x (by simp [hx])
    simp [ha, ht]
    ring

lemma ce5_norms :
    [((0:ℝ), (0:ℝ)), (0, 0), (0, 0), (0, 0), (3, 0)].map normv = [0, 0, 0, 0, 3] := by
  have h0 : normv 0 = 0 := by simp [normv]
  have h3 : normv ((3:ℝ), (0:ℝ)) = 3 := by
    simp only [normv]
    rw [show ((3:ℝ) ^ 2 + (0:ℝ) ^ 2) = 3 ^ 2 by norm_num,
      Real.sqrt_sq (by norm_num : (0:ℝ) ≤ 3)]
  simp [h0, h3]

lemma ce5_mean : meanL [0, 0, 0, 0, 3] = 3 / 5 := by
  simp [meanL]

lemma ce5_std : stdL [0, 0, 0, 0, 3] = 6 / 5 := by
  simp only [stdL, ce5_mean, List.map_cons, List.map_nil, List.sum_cons, List.sum_nil,
    List.length_cons, List.length_nil]
  rw [show ((0 - 3 / 5 : ℝ) ^ 2 + ((0 - 3 / 5) ^ 2 + ((0 - 3 / 5) ^ 2 + ((0 - 3 / 5) ^ 2 +
      ((3 - 3 / 5) ^ 2 + 0))))) / (0 + 1 + 1 + 1 + 1 + 1 : ℕ) = (6 / 5 : ℝ) ^ 2 by
    push_cast
    norm_num]
  exact Real.sqrt_sq (by norm_num)

lemma ce5_code :
    get_outlier_filter [((0:ℝ), (0:ℝ)), (0, 0), (0, 0), (0, 0), (3, 0)] 2 =
      [true, true, true, true, false] := by
  have hstd : stdL [0, 0, 0, 0, 3] ≠ 0 := by
    rw [ce5_std]
    norm_num
  rw [get_outlier_filter, ce5_norms, zsel, if_neg hstd]
  simp only [ce5_mean, ce5_std, List.map_cons, List.map_nil, List.cons.injEq]
  refine ⟨?_, ?_, ?_, ?_, ?_, trivial⟩
  · rw [decide_eq_true_eq, abs_lt]
    constructor <;> norm_num
  · rw [decide_eq_true_eq, abs_lt]
    constructor <;> norm_num
  · rw [decide_eq_true_eq, abs_lt]
    constructor <;> norm_num
  · rw [decide_eq_true_eq, abs_lt]
    constructor <;> norm_num
  · rw [decide_eq_false_iff_not, abs_lt]
    push_neg
    intro h
    norm_num

lemma ce5_claim :
    get_outlier_filter_claim [((0:ℝ), (0:ℝ)), (0, 0), (0, 0), (0, 0), (3, 0)] 2 =
      [true, true, true, true, true] := by
  rw [get_outlier_filter_claim, ce5_norms, zsel_claim]
  simp only [ce5_mean, ce5_std, List.map_cons, List.map_nil, List.cons.injEq]
  refine ⟨?_, ?_, ?_, ?_, ?_, trivial⟩ <;>
  · rw [decide_eq_true_eq, gt_iff_lt, not_lt, abs_le]
    constructor <;> norm_num

/-- C4 counterexample: on five samples with norms `[0,0,0,0,3]` the last
sample has z-score exactly `2.0`; the code rejects it (it tests
`abs(z) < threshold`) although its absolute z-score does not *exceed* the
threshold, so the claim filter keeps it.  The claim, as stated, is false at
this input. -/
theorem outlier_filter_boundary_counterexample :
    get_outlier_filter [((0:ℝ), (0:ℝ)), (0, 0), (0, 0), (0, 0), (3, 0)] 2 =
      [true, true, true, true, false] ∧
    get_outlier_filter_claim [((0:ℝ), (0:ℝ)), (0, 0), (0, 0), (0, 0), (3, 0)] 2 =
      [true, true, true, true, true] ∧
    get_outlier_filter [((0:ℝ), (0:ℝ)), (0, 0), (0, 0), (0, 0), (3, 0)] 2 ≠
      get_outlier_filter_claim [((0:ℝ), (0:ℝ)), (0, 0), (0, 0), (0, 0), (3, 0)] 2 :=
  ⟨ce5_code, ce5_claim, by
    rw [ce5_code, ce5_claim]
    simp⟩

/-- C4 amended: the filter keeps exactly the samples whose z-score is
well defined (nonzero norm standard deviation) and has absolute value
*strictly below* the threshold; every other sample — including every sample
when the standard deviation is zero — is rejected, and the reported removed
count `len(sel) - sum(sel)` equals the number of rejected samples. -/
theorem outlier_filter_keep_iff (data : List (ℝ × ℝ)) (threshold : ℝ) :
    get_outlier_filter data threshold =
      data.map (fun v =>
        decide (stdL (data.map normv) ≠ 0 ∧
          |(normv v - meanL (data.map normv)) / stdL (data.map normv)| < threshold)) ∧
    removed_count (get_outlier_filter data threshold) =
      (get_outlier_filter data threshold).count false := by
  constructor
  · rw [get_outlier_filter, zsel]
    split_ifs with h
    · simp [h, List.map_map, Function.comp]
    · simp [h, List.map_map, Function.comp]
  · have := count_true_add_count_false (get_outlier_filter data threshold)
    rw [removed_count]
    omega

/-- C10: on a nonempty sample list whose Euclidean norms are all equal the
norm standard deviation is zero, every z-score is NaN, the NaN comparison
fails for every element, and the filter returns an all-`False` selection —
no sample survives for the affine fit. -/
theorem outlier_filter_zero_variance (data : List (ℝ × ℝ)) (threshold c : ℝ)
    (hne : data ≠ []) (hall : ∀ v ∈ data, normv v = c) :
    get_outlier_filter data threshold = data.map (fun _ => false) ∧
    (get_outlier_filter data threshold).count true = 0 := by
  have hlen : ((data.map normv).length : ℝ) ≠ 0 := by
    simp only [List.length_map]
    exact_mod_cast fun h => hne (List.length_eq_zero.mp h)
  have hns : ∀ x ∈ data.map normv, x = c := by
    intro x hx
    obtain ⟨v, hv, rfl⟩ := List.mem_map.mp hx
    exact hall v hv
  have hmean : meanL (data.map normv) = c := by
    rw [meanL, sum_eq_of_all_eq _ c hns, mul_comm, mul_div_assoc, div_self hlen, mul_one]
  have hdev : ∀ x ∈ (data.map normv).map (fun x => (x - meanL (data.map normv)) ^ 2),
      x = 0 := by
    intro x hx
    obtain ⟨y, hy, rfl⟩ := List.mem_map.mp hx
    rw [hmean, hns y hy]
    ring
  have hstd : stdL (data.map normv) = 0 := by
    rw [stdL, sum_eq_of_all_eq _ 0 hdev, mul_zero, zero_div, Real.sqrt_zero]
  constructor
  · rw [get_outlier_filter, zsel, if_pos hstd, List.map_map]
    rfl
  · rw [get_outlier_filter, zsel, if_pos hstd, List.map_map]
    simp [List.count_eq_zero]

/-- Witness for C10 at two samples of equal norm 5. -/
theorem outlier_filter_zero_variance_witness :
    get_outlier_filter [((3:ℝ), (4:ℝ)), (0, 5)] 2 = [false, false] := by
  have h34 : normv ((3:ℝ), (4:ℝ)) = 5 := by
    simp only [normv]
    rw [show ((3:ℝ) ^ 2 + (4:ℝ) ^ 2) = 5 ^ 2 by norm_num,
      Real.sqrt_sq (by norm_num : (0:ℝ) ≤ 5)]
  have h05 : normv ((0:ℝ), (5:ℝ)) = 5 := by
    simp only [normv]
    rw [show ((0:ℝ) ^ 2 + (5:ℝ) ^ 2) = 5 ^ 2 by norm_num,
      Real.sqrt_sq (by norm_num : (0:ℝ) ≤ 5)]
  have h := outlier_filter_zero_variance [((3:ℝ), (4:ℝ)), (0, 5)] 2 5 (by simp) ?_
  · rw [h.1]
    rfl
  · intro v hv
    simp only [List.mem_cons, List.mem_singleton, List.not_mem_nil, or_false] at hv
    rcases hv with rfl | rfl
    · exact h34
    · exact h05

/-! ### Stage calibration driver (calibrate_stagematrix.py)

`calibrate_stage` reads the configured pixel size for the mode/magnification
and raises `ValueError` when it is `1.0` (the uncalibrated sentinel) or
`0.0`, before computing the scan geometry and delegating to
`calibrate_stage_from_stagepos` (the only place stage moves and image
acquisition happen).  The model returns the chronological effect trace next
to the result. -/

/-- Externally visible hardware/IO actions of the calibration driver. -/
inductive Eff
  | setMode
  | stageMove (x y : ℚ)
  | stageReturn (x y : ℚ)
  | capture
  | readImage
deriving DecidableEq

/-- Embeds `getImage(ctrl, drc, j, i, mode, mag)`: captures from the camera when
the module-level `write` flag is set, otherwise reads a stored tiff. -/
def getImage_eff (w : Bool) : Eff := if w then .capture else .readImage

/-- Effect trace of `calibrate_stage_from_stagepos(ctrl, *args)`: for each
`(n_steps, (dx, dy))` range one baseline image, then `n_steps - 1` moves
(each to the position accumulated from the start position) each followed by
one image, then the return of the stage to its starting position. -/
def stagepos_trace (w : Bool) (x0 y0 : ℚ) (args : List (ℕ × ℚ × ℚ)) : List Eff :=
  args.flatMap (fun r =>
    getImage_eff w ::
      ((List.range (r.1 - 1)).flatMap (fun j =>
        [Eff.stageMove (x0 + (j + 1 : ℕ) * r.2.1) (y0 + (j + 1 : ℕ) * r.2.2),
          getImage_eff w]) ++
        [Eff.stageReturn x0 y0]))

/-- The scan geometry `calibrate_stage` computes before delegating. -/
structure CalArgs where
  x_step : ℚ
  y_step : ℚ
  n_x_step : ℤ
  n_y_step : ℤ
deriving DecidableEq

/-- Embeds `calibrate_stage(ctrl, mode, mag, overlap, stage_length, min_n_step,
max_n_step)`: effect trace plus either the `ValueError` raised on an
invalid pixel size or the computed scan geometry.  `shape` is
`config.camera.dimensions`; `modeGiven` tells whether explicit `mode`/`mag`
arguments were passed (they are then written to the instrument before the
pixel-size check). -/
def calibrate_stage (modeGiven : Bool) (pixelsize : ℚ) (shape : ℚ × ℚ)
    (overlap stage_length : ℚ) (min_n_step max_n_step : ℤ) (x0 y0 : ℚ) (w : Bool) :
    List Eff × Except Unit CalArgs :=
  let pre := if modeGiven then [Eff.setMode] else []
  if pixelsize = 1 ∨ pixelsize = 0 then (pre, .error ())
  else
    let x_step := shape.1 * pixelsize * (1 - overlap)
    let y_step := shape.2 * pixelsize * (1 - overlap)
    let n_x_step := if x_step * min_n_step > stage_length then min_n_step
      else min ⌊stage_length / x_step⌋ max_n_step
    let n_y_step := if y_step * min_n_step > stage_length then min_n_step
      else min ⌊stage_length / y_step⌋ max_n_step
    (pre ++ stagepos_trace w x0 y0 [(n_x_step.toNat, x_step, 0), (n_y_step.toNat, 0, y_step)],
      .ok ⟨x_step, y_step, n_x_step, n_y_step⟩)

/-- C5: an invalid configured pixel size (`0.0`, or the `1.0` uncalibrated
sentinel) makes `calibrate_stage` fail with the configuration error before
any stage movement or image acquisition: the only effect that may precede
the failure is writing the requested imaging mode/magnification. -/
theorem calibrate_stage_fail_fast (modeGiven : Bool) (pixelsize : ℚ) (shape : ℚ × ℚ)
    (overlap stage_length : ℚ) (min_n_step max_n_step : ℤ) (x0 y0 : ℚ) (w : Bool)
    (h : pixelsize = 0 ∨ pixelsize = 1) :
    (calibrate_stage modeGiven pixelsize shape overlap stage_length min_n_step max_n_step
        x0 y0 w).2 = .error () ∧
    ∀ e ∈ (calibrate_stage modeGiven pixelsize shape overlap stage_length min_n_step
        max_n_step x0 y0 w).1, e = Eff.setMode := by
  have hc : pixelsize = 1 ∨ pixelsize = 0 := h.symm
  rw [calibrate_stage]
  simp only [if_pos hc]
  refine ⟨trivial, ?_⟩
  cases modeGiven <;> simp

/-- Witness for C5 at the sentinel pixel size `1.0`. -/
theorem calibrate_stage_fail_fast_witness :
    ((1:ℚ) = 0 ∨ (1:ℚ) = 1) ∧
    (calibrate_stage true 1 (2048, 2048) (1/2) 40000 3 15 0 0 false).2 = .error () :=
  ⟨Or.inr rfl,
    (calibrate_stage_fail_fast true 1 (2048, 2048) (1/2) 40000 3 15 0 0 false
      (Or.inr rfl)).1⟩

/-! ### Per-magnification calibration sweep (`calibrate_stage_all`)

Each iteration of the sweep executes
`try: drc = drcs[mode][mag] except KeyError: continue` followed by
`try: stagematrix = calibrate_stage(...) except ValueError as e: print(e);
continue`.  The module never defines (nor imports) a global named `drcs`,
so the first statement raises `NameError` — which the `except KeyError`
clause does not catch — for every magnification. -/

inductive PyErr
  | nameError
  | keyError
  | valueError
deriving DecidableEq

inductive MagMode
  | lowmag
  | mag1
deriving DecidableEq

/-- Evaluation of the expression `drcs[mode][mag]`: the name `drcs` is
undefined at module level, so Python raises `NameError` before any indexing
happens, for every argument. -/
def drcs_lookup (_ : MagMode) (_ : ℕ) : Except PyErr ℕ := .error .nameError

/-- The per-mode slice of the configuration dictionary accumulated by
`calibrate_stage_all`. -/
structure ModeCfg where
  stagematrix : List (ℕ × M2)
  pixelsize : List (ℕ × ℚ)
deriving DecidableEq

/-- One `for mag in mag_ranges[mode]` iteration of `calibrate_stage_all`.
`pixelsize_of` is the configured pixel size consulted by `calibrate_stage`
(whose invalid values raise the `ValueError` that the sweep catches and
skips); `stagematrix_of` and `pixelsize_result` stand for the
hardware-dependent calibration outcome. -/
def calib_mag_step (pixelsize_of : MagMode → ℕ → ℚ) (stagematrix_of : MagMode → ℕ → M2)
    (pixelsize_result : MagMode → ℕ → ℚ) (mode : MagMode) (cfg : ModeCfg) (mag : ℕ) :
    Except PyErr ModeCfg :=
  match drcs_lookup mode mag with
  | .error .keyError => .ok cfg
  | .error e => .error e
  | .ok _ =>
    if pixelsize_of mode mag = 1 ∨ pixelsize_of mode mag = 0 then .ok cfg
    else .ok ⟨cfg.stagematrix ++ [(mag, stagematrix_of mode mag)],
      cfg.pixelsize ++ [(mag, pixelsize_result mode mag)]⟩

/-- Sweep over the magnification range of one mode. -/
def calib_mode_sweep (pixelsize_of : MagMode → ℕ → ℚ) (stagematrix_of : MagMode → ℕ → M2)
    (pixelsize_result : MagMode → ℕ → ℚ) (mode : MagMode) (mags : List ℕ) :
    Except PyErr ModeCfg :=
  mags.foldlM (calib_mag_step pixelsize_of stagematrix_of pixelsize_result mode) ⟨[], []⟩

/-- Embeds `calibrate_stage_all(ctrl, mag_ranges)`: sweep `lowmag` then `mag1` and
return the accumulated configuration. -/
def calibrate_stage_all (pixelsize_of : MagMode → ℕ → ℚ)
    (stagematrix_of : MagMode → ℕ → M2) (pixelsize_result : MagMode → ℕ → ℚ)
    (mag_ranges : MagMode → List ℕ) : Except PyErr (List (MagMode × ModeCfg)) := do
  let l ← calib_mode_sweep pixelsize_of stagematrix_of pixelsize_result .lowmag
    (mag_ranges .lowmag)
  let m ← calib_mode_sweep pixelsize_of stagematrix_of pixelsize_result .mag1
    (mag_ranges .mag1)
  return [(.lowmag, l), (.mag1, m)]

/-- C6 (code bug): on any sweep containing at least one magnification —
here `{lowmag: [100], mag1: []}` with a perfectly valid pixel size — the
very first iteration evaluates `drcs[mode][mag]`, the undefined name `drcs`
raises `NameError`, the `except KeyError` clause does not catch it, and the
whole sweep aborts instead of returning the accumulated configuration
dictionary. -/
theorem calibrate_stage_all_name_error :
    calibrate_stage_all (fun _ _ => 5) (fun _ _ => ⟨1, 0, 0, 1⟩) (fun _ _ => 5)
      (fun m => match m with | .lowmag => [100] | .mag1 => []) =
      .error .nameError := rfl

/-! ### cRED acquisition loop (experiments/cred/experiment.py)

`Experiment.start_collection` in auto-track mode: the initial reference
detection (`find_holes` on the defocused image, crop-window computation),
then the `while not self.stopEvent.is_set()` recording loop with frame
counter `i` starting at 1, and the post-loop hand-off to `ImgConversion`.
Real time is abstracted into the per-iteration environment: the stop flag,
the `find_holes` result, the `register_translation` shift, and the number
of whole scheduling intervals already elapsed (each advances the counter
once in the frame-skip accounting loop). -/

/-- One feature returned by `find_holes`: weighted centroid `(cy, cx)` and
bounding box `(y1, x1, y2, x2)`. -/
structure Feature where
  cy : ℚ
  cx : ℚ
  y1 : ℚ
  x1 : ℚ
  y2 : ℚ
  x2 : ℚ
deriving DecidableEq

/-- Python `int(.)`: truncation toward zero. -/
def pyInt (q : ℚ) : ℤ := if 0 ≤ q then ⌊q⌋ else ⌈q⌉

/-- Embeds `window_size = int(d_SA/1.414)`, then `window_size += 1` if odd, where
`d_SA = y2 - y1` is the bounding-box height and `1.414` the float literal
(modelled as the exact rational `1414/1000`). -/
def window_size_code (d_SA : ℚ) : ℤ :=
  let w := pyInt (d_SA / (1414 / 1000))
  if w % 2 = 1 then w + 1 else w

/-- The auto-track reference state built from the first (defocused)
tracking image: centroid, window size, the bounds `img0[a1:b1, a2:b2]` of
the stored reference crop, and the initial shift `cc = (0, 0)`.
(`window_size/2` is Python 2 integer division; `window_size` is always even
so it is exact.) -/
structure InitData where
  crystal_pos : ℚ × ℚ
  window_size : ℤ
  a1 : ℤ
  b1 : ℤ
  a2 : ℤ
  b2 : ℤ
  cc : ℚ × ℚ
deriving DecidableEq

/-- The initial feature detection of auto-track mode: exactly one feature
from `find_holes` builds the reference crop; any other count prints
"Please find another nicely SEPARATED crystal" and returns `None`,
aborting the session before recording starts. -/
def autotrackInit : List Feature → Option InitData
  | [p] =>
    let ws := window_size_code (p.y2 - p.y1)
    some ⟨(p.cy, p.cx), ws,
      pyInt (p.cy - ((ws / 2 : ℤ) : ℚ)), pyInt (p.cy + ((ws / 2 : ℤ) : ℚ)),
      pyInt (p.cx - ((ws / 2 : ℤ) : ℚ)), pyInt (p.cx + ((ws / 2 : ℤ) : ℚ)), (0, 0)⟩
  | _ => none

/-- Camera/lens actions of one loop iteration. -/
inductive Ev
  | setFocus (v : ℚ)
  | capture (exposure : ℚ)
deriving DecidableEq

/-- Environment of one iteration of `while not self.stopEvent.is_set()`. -/
structure IterIn where
  stop : Bool
  feats : List Feature
  cc : ℚ × ℚ
  skips : ℕ
deriving DecidableEq

/-- Mutable state of the recording loop: frame counter, diffraction-frame
indices (`buffer`), tracking-frame indices (`image_buffer`), running
beam-shift target `(bs_x0, bs_y0)`, and the camera/lens event log. -/
structure AutoState where
  i : ℕ
  buffer : List ℕ
  image_buffer : List ℕ
  bs : ℚ × ℚ
  events : List Ev
deriving DecidableEq

/-- How the loop ended: the external stop flag, the `break` on an
ambiguous tracking detection, or the supplied finite environment ran out
(loop still running). -/
inductive ExitKind
  | stopped
  | ambiguous
  | exhausted
deriving DecidableEq

/-- Embeds `np.matmul(transform, cc)`. -/
def matVec (m : M2) (v : ℚ × ℚ) : ℚ × ℚ :=
  (m.a * v.1 + m.b * v.2, m.c * v.1 + m.d * v.2)

/-- Events of one auto-mode tracking capture: set the diffraction focus to
the defocused value, capture at the shorter exposure `expt/10`, restore
the proper focus immediately after. -/
def trackEvents (expt dfp dfd : ℚ) : List Ev :=
  [.setFocus dfd, .capture (expt / 10), .setFocus dfp]

/-- The auto-mode recording loop of `start_collection`.  When
`i % image_interval == 0` a tracking frame is captured and appended to
`image_buffer`, `find_holes` is consulted: exactly one feature leads to the
beam-shift correction `bs += transform @ cc` and the frame-skip accounting
(`i += skips`); any other count prints "At least two apertures found!!
Exitting auto mode..." and breaks out of the whole `while` loop.
Otherwise a diffraction frame at the configured exposure is appended to
`buffer`.  In both continuing branches the counter then advances by one. -/
def runAuto (interval : ℕ) (tf : M2) (expt dfp dfd : ℚ) :
    AutoState → List IterIn → AutoState × ExitKind
  | s, [] => (s, .exhausted)
  | s, inp :: rest =>
    if inp.stop then (s, .stopped)
    else if s.i % interval = 0 then
      let s1 : AutoState :=
        { s with image_buffer := s.image_buffer ++ [s.i],
                 events := s.events ++ trackEvents expt dfp dfd }
      if inp.feats.length = 1 then
        runAuto interval tf expt dfp dfd
          { s1 with
              bs := (s1.bs.1 + (matVec tf inp.cc).1, s1.bs.2 + (matVec tf inp.cc).2),
              i := s1.i + inp.skips + 1 } rest
      else (s1, .ambiguous)
    else
      runAuto interval tf expt dfp dfd
        { s with buffer := s.buffer ++ [s.i],
                 events := s.events ++ [.capture expt], i := s.i + 1 } rest

/-- Iterations during which the loop keeps recording: stop flag unset,
exactly one detected feature, no scheduling overrun. -/
def benign (l : List IterIn) : Prop :=
  ∀ x ∈ l, x.stop = false ∧ x.feats.length = 1 ∧ x.skips = 0

/-- Consecutive frame indices `s, s+1, …, s+n-1`. -/
def idxs : ℕ → ℕ → List ℕ
  | _, 0 => []
  | s, n + 1 => s :: idxs (s + 1) n

/-- Per-frame event log of a benign run starting at counter `j`, `n`
frames long. -/
def evSeq (expt dfp dfd : ℚ) (interval : ℕ) : ℕ → ℕ → List Ev
  | _, 0 => []
  | j, n + 1 =>
    (if j % interval = 0 then trackEvents expt dfp dfd else [.capture expt]) ++
      evSeq expt dfp dfd interval (j + 1) n

lemma runAuto_track_step (interval : ℕ) (tf : M2) (expt dfp dfd : ℚ) (s : AutoState)
    (inp : IterIn) (rest : List IterIn) (h1 : inp.stop = false)
    (h2 : s.i % interval = 0) (h3 : inp.feats.length = 1) :
    runAuto interval tf expt dfp dfd s (inp :: rest) =
      runAuto interval tf expt dfp dfd
        ⟨s.i + inp.skips + 1, s.buffer, s.image_buffer ++ [s.i],
          (s.bs.1 + (matVec tf inp.cc).1, s.bs.2 + (matVec tf inp.cc).2),
          s.events ++ trackEvents expt dfp dfd⟩ rest := by
  rw [runAuto, h1]
  simp only [Bool.false_eq_true, if_false, if_pos h2, if_pos h3]

lemma runAuto_ambiguous_break (interval : ℕ) (tf : M2) (expt dfp dfd : ℚ) (s : AutoState)
    (inp : IterIn) (rest : List IterIn) (h1 : inp.stop = false)
    (h2 : s.i % interval = 0) (h3 : inp.feats.length ≠ 1) :
    runAuto interval tf expt dfp dfd s (inp :: rest) =
      ({ s with image_buffer := s.image_buffer ++ [s.i],
                events := s.events ++ trackEvents expt dfp dfd }, .ambiguous) := by
  rw [runAuto, h1]
  simp only [Bool.false_eq_true, if_false, if_pos h2, if_neg h3]

lemma runAuto_diff_step (interval : ℕ) (tf : M2) (expt dfp dfd : ℚ) (s : AutoState)
    (inp : IterIn) (rest : List IterIn) (h1 : inp.stop = false)
    (h2 : ¬ s.i % interval = 0) :
    runAuto interval tf expt dfp dfd s (inp :: rest) =
      runAuto interval tf expt dfp dfd
        ⟨s.i + 1, s.buffer ++ [s.i], s.image_buffer, s.bs,
          s.events ++ [.capture expt]⟩ rest := by
  rw [runAuto, h1]
  simp only [Bool.false_eq_true, if_false, if_neg h2]

lemma benign_cons {a : IterIn} {t : List IterIn} (h : benign (a :: t)) :
    (a.stop = false ∧ a.feats.length = 1 ∧ a.skips = 0) ∧ benign t :=
  ⟨h a (List.mem_cons_self a t), fun x hx => h x (List.mem_cons_of_mem a hx)⟩

/-- Full characterization of a benign run: the loop consumes the whole
environment, advances the counter once per frame, splits frame indices
between `image_buffer` (multiples of the interval) and `buffer` (the
rest), and logs defocused short-exposure captures exactly on the tracking
frames. -/
lemma runAuto_benign_run (interval : ℕ) (tf : M2) (expt dfp dfd : ℚ) :
    ∀ (l : List IterIn), benign l → ∀ s : AutoState,
      (runAuto interval tf expt dfp dfd s l).2 = .exhausted ∧
      (runAuto interval tf expt dfp dfd s l).1.i = s.i + l.length ∧
      (runAuto interval tf expt dfp dfd s l).1.image_buffer =
        s.image_buffer ++ (idxs s.i l.length).filter (fun j => j % interval == 0) ∧
      (runAuto interval tf expt dfp dfd s l).1.buffer =
        s.buffer ++ (idxs s.i l.length).filter (fun j => !(j % interval == 0)) ∧
      (runAuto interval tf expt dfp dfd s l).1.events =
        s.events ++ evSeq expt dfp dfd interval s.i l.length := by
  intro l
  induction l with
  | nil =>
    intro _ s
    simp [runAuto, idxs, evSeq]
  | cons a t ih =>
    intro hb s
    obtain ⟨⟨ha1, ha2, ha3⟩, hbt⟩ := benign_cons hb
    by_cases hdiv : s.i % interval = 0
    · rw [runAuto_track_step interval tf expt dfp dfd s a t ha1 hdiv ha2, ha3,
        Nat.add_zero]
      obtain ⟨g1, g2, g3, g4, g5⟩ := ih hbt
        ⟨s.i + 1, s.buffer, s.image_buffer ++ [s.i],
          (s.bs.1 + (matVec tf a.cc).1, s.bs.2 + (matVec tf a.cc).2),
          s.events ++ trackEvents expt dfp dfd⟩
      have hpos : ((fun j => j % interval == 0) s.i : Bool) = true := by
        simpa using hdiv
      have hneg : ((fun j => !(j % interval == 0)) s.i : Bool) = false := by
        simpa using hdiv
      refine ⟨g1, ?_, ?_, ?_, ?_⟩
      · rw [g2]
        simp only [List.length_cons]
        omega
      · rw [g3]
        simp [idxs, List.filter_cons, hpos, List.append_assoc]
      · rw [g4]
        simp [idxs, List.filter_cons, hneg]
      · rw [g5]
        simp [evSeq, hdiv, List.append_assoc]
    · rw [runAuto_diff_step interval tf expt dfp dfd s a t ha1 hdiv]
      obtain ⟨g1, g2, g3, g4, g5⟩ := ih hbt
        ⟨s.i + 1, s.buffer ++ [s.i], s.image_buffer, s.bs,
          s.events ++ [.capture expt]⟩
      have hpos : ((fun j => j % interval == 0) s.i : Bool) = false := by
        simpa using hdiv
      have hneg : ((fun j => !(j % interval == 0)) s.i : Bool) = true := by
        simpa using hdiv
      refine ⟨g1, ?_, ?_, ?_, ?_⟩
      · rw [g2]
        simp only [List.length_cons]
        omega
      · rw [g3]
        simp [idxs, List.filter_cons, hpos]
      · rw [g4]
        simp [idxs, List.filter_cons, hneg, List.append_assoc]
      · rw [g5]
        simp [evSeq, hdiv, List.append_assoc]

lemma idxs_length (n s : ℕ) : (idxs s n).length = n := by
  induction n generalizing s with
  | zero => rfl
  | succ k ih => simp [idxs, ih]

lemma length_filter_add_length_filter_not (l : List ℕ) (p : ℕ → Bool) :
    (l.filter p).length + (l.filter (fun a => !(p a))).length = l.length := by
  induction l with
  | nil => simp
  | cons a t ih => by_cases h : p a <;> simp [List.filter_cons, h, ← ih] <;> omega

/-- Concrete single feature used by the witnesses below. -/
def p1 : Feature := ⟨500, 500, 400, 400, 600, 600⟩

/-- Benign iteration: no stop, one detected feature, no overrun. -/
def benignIn : IterIn := ⟨false, [p1], (0, 0), 0⟩

/-- Iteration whose tracking image shows two detected features. -/
def ambIn : IterIn := ⟨false, [p1, p1], (0, 0), 0⟩

/-- Iteration at whose start the stop event is set. -/
def stopIn : IterIn := ⟨true, [], (0, 0), 0⟩

/-- Identity beam-shift calibration transform, for concrete runs. -/
def idM : M2 := ⟨1, 0, 0, 1⟩

/-- C2: in the auto-mode recording loop with frame counter starting at 1,
as long as no stop, ambiguity or overrun intervenes, a tracking frame
(diffraction focus set to the defocused value, capture at the shorter
exposure `expt/10`, focus restored immediately) is taken exactly at the
counter values divisible by `image_interval` and a normal diffraction frame
at the configured exposure at every other counter value. -/
theorem tracking_frame_cadence (interval : ℕ) (tf : M2) (expt dfp dfd : ℚ)
    (bs0 : ℚ × ℚ) (l : List IterIn) (hb : benign l) :
    (runAuto interval tf expt dfp dfd ⟨1, [], [], bs0, []⟩ l).1.image_buffer =
      (idxs 1 l.length).filter (fun j => j % interval == 0) ∧
    (runAuto interval tf expt dfp dfd ⟨1, [], [], bs0, []⟩ l).1.buffer =
      (idxs 1 l.length).filter (fun j => !(j % interval == 0)) ∧
    (runAuto interval tf expt dfp dfd ⟨1, [], [], bs0, []⟩ l).1.events =
      evSeq expt dfp dfd interval 1 l.length := by
  obtain ⟨_, _, g3, g4, g5⟩ :=
    runAuto_benign_run interval tf expt dfp dfd l hb ⟨1, [], [], bs0, []⟩
  exact ⟨by simpa using g3, by simpa using g4, by simpa using g5⟩

/-- Witness for C2: a 22-frame benign run with `image_interval = 5` yields
exactly the 4 tracking frames 5, 10, 15, 20. -/
theorem tracking_frame_cadence_witness :
    benign (List.replicate 22 benignIn) ∧
    (runAuto 5 idM 10 0 0 ⟨1, [], [], (0, 0), []⟩
        (List.replicate 22 benignIn)).1.image_buffer = [5, 10, 15, 20] ∧
    (runAuto 5 idM 10 0 0 ⟨1, [], [], (0, 0), []⟩
        (List.replicate 22 benignIn)).1.buffer =
      [1, 2, 3, 4, 6, 7, 8, 9, 11, 12, 13, 14, 16, 17, 18, 19, 21, 22] := by
  have hb : benign (List.replicate 22 benignIn) := by
    unfold benign
    decide
  refine ⟨hb, ?_, ?_⟩
  · exact ((tracking_frame_cadence 5 idM 10 0 0 (0, 0) _ hb).1).trans (by decide)
  · exact ((tracking_frame_cadence 5 idM 10 0 0 (0, 0) _ hb).2.1).trans (by decide)

/-- Environment for the C3 counterexample: four benign frames, an
ambiguous tracking frame at counter 5, and three more available benign
iterations after it. -/
def c3Ins : List IterIn :=
  [benignIn, benignIn, benignIn, benignIn, ambIn, benignIn, benignIn, benignIn]

/-- C3 counterexample: with an ambiguous detection on the tracking frame at
counter 5 and three further non-stop iterations available, the loop records
no diffraction frame beyond index 4 — the `break` leaves the whole
recording loop, so the acquisition does *not* continue recording
non-tracked diffraction frames as the claim states (the beam-shift target
is indeed left unchanged). -/
theorem ambiguous_abort_counterexample :
    (runAuto 5 idM 1 0 0 ⟨1, [], [], (7, 9), []⟩ c3Ins).2 = .ambiguous ∧
    (runAuto 5 idM 1 0 0 ⟨1, [], [], (7, 9), []⟩ c3Ins).1.buffer = [1, 2, 3, 4] ∧
    (runAuto 5 idM 1 0 0 ⟨1, [], [], (7, 9), []⟩ c3Ins).1.image_buffer = [5] ∧
    (runAuto 5 idM 1 0 0 ⟨1, [], [], (7, 9), []⟩ c3Ins).1.bs = (7, 9) ∧
    c3Ins.length = 8 := by
  refine ⟨?_, ?_, ?_, ?_, ?_⟩ <;> decide

/-- C3 amended: an ambiguous detection on a tracking frame surfaces the
operator message and terminates auto-track mode by breaking out of the
whole recording loop: the beam-shift target is unchanged by that
invocation, no further frame of any kind is recorded no matter how many
iterations were still available, and the session proceeds to the post-loop
finalization with the frames gathered so far. -/
theorem ambiguous_tracking_aborts (interval : ℕ) (tf : M2) (expt dfp dfd : ℚ)
    (s : AutoState) (inp : IterIn) (rest : List IterIn) (h1 : inp.stop = false)
    (h2 : s.i % interval = 0) (h3 : inp.feats.length ≠ 1) :
    (runAuto interval tf expt dfp dfd s (inp :: rest)).2 = .ambiguous ∧
    (runAuto interval tf expt dfp dfd s (inp :: rest)).1.bs = s.bs ∧
    (runAuto interval tf expt dfp dfd s (inp :: rest)).1.buffer = s.buffer ∧
    (runAuto interval tf expt dfp dfd s (inp :: rest)).1.image_buffer =
      s.image_buffer ++ [s.i] := by
  rw [runAuto_ambiguous_break interval tf expt dfp dfd s inp rest h1 h2 h3]
  exact ⟨rfl, rfl, rfl, rfl⟩

/-- Witness for the amended C3 at a concrete two-feature detection. -/
theorem ambiguous_tracking_aborts_witness :
    (runAuto 5 idM 1 0 0 ⟨5, [1, 2, 3, 4], [], (7, 9), []⟩ [ambIn, benignIn]).2 =
      .ambiguous ∧
    (runAuto 5 idM 1 0 0 ⟨5, [1, 2, 3, 4], [], (7, 9), []⟩ [ambIn, benignIn]).1.bs =
      (7, 9) := by
  have h := ambiguous_tracking_aborts 5 idM 1 0 0 ⟨5, [1, 2, 3, 4], [], (7, 9), []⟩
    ambIn [benignIn] rfl (by decide) (by decide)
  exact ⟨h.1, h.2.1⟩

/-- C9: any detection count other than exactly one — zero included — takes
the abort path, both for the initial reference image (the session returns
`None` before recording starts) and on every later tracking frame (the
loop breaks with the ambiguity exit). -/
theorem nonunique_detection_aborts (n : ℕ) (hn : n ≠ 1) :
    (∀ feats : List Feature, feats.length = n → autotrackInit feats = none) ∧
    (∀ (interval : ℕ) (tf : M2) (expt dfp dfd : ℚ) (s : AutoState) (inp : IterIn)
        (rest : List IterIn), inp.stop = false → s.i % interval = 0 →
        inp.feats.length = n →
        (runAuto interval tf expt dfp dfd s (inp :: rest)).2 = .ambiguous) := by
  constructor
  · intro feats hf
    rcases feats with _ | ⟨p, _ | ⟨q, r⟩⟩
    · rfl
    · simp only [List.length_singleton] at hf
      exact (hn hf.symm).elim
    · rfl
  · intro interval tf expt dfp dfd s inp rest h1 h2 h3
    have h3n : inp.feats.length ≠ 1 := by
      rw [h3]
      exact hn
    rw [runAuto_ambiguous_break interval tf expt dfp dfd s inp rest h1 h2 h3n]

/-- Witness for C9 at zero detected features. -/
theorem nonunique_detection_aborts_witness :
    (0 : ℕ) ≠ 1 ∧ autotrackInit [] = none ∧
    (runAuto 5 idM 1 0 0 ⟨5, [1, 2, 3, 4], [], (0, 0), []⟩
        [⟨false, [], (0, 0), 0⟩]).2 = .ambiguous := by
  refine ⟨by decide, ?_, ?_⟩
  · exact (nonunique_detection_aborts 0 (by decide)).1 [] rfl
  · exact (nonunique_detection_aborts 0 (by decide)).2 5 idM 1 0 0 _ _ [] rfl
      (by decide) rfl

/-! ### Crop-window size (C7) -/

/-- Modelled from the spec (the words of C7, kept only for comparison with
the source definition `window_size_code`): square crop side = the
bounding-box diagonal divided by the square root of 2, rounded up to an
even integer (the least even integer at or above the normalized
diagonal). -/
noncomputable def spec_window_size (y1 x1 y2 x2 : ℝ) : ℤ :=
  2 * ⌈Real.sqrt ((y2 - y1) ^ 2 + (x2 - x1) ^ 2) / Real.sqrt 2 / 2⌉

lemma ws_one : window_size_code 1 = 0 := by
  have hq : (0:ℚ) ≤ 1 / (1414 / 1000) := by norm_num
  have h2 : pyInt ((1:ℚ) / (1414 / 1000)) = 0 := by
    rw [pyInt, if_pos hq, Int.floor_eq_iff]
    constructor <;> norm_num
  simp only [window_size_code, h2]
  norm_num

lemma window_size_code_even (d : ℚ) : window_size_code d % 2 = 0 := by
  rw [window_size_code]
  split_ifs with h <;> omega

lemma window_size_code_bounds (d : ℚ) :
    pyInt (d / (1414 / 1000)) ≤ window_size_code d ∧
    window_size_code d ≤ pyInt (d / (1414 / 1000)) + 1 := by
  rw [window_size_code]
  split_ifs <;> omega

lemma window_size_code_nonneg (d : ℚ) (hd : 0 ≤ d) : 0 ≤ window_size_code d := by
  have h : 0 ≤ pyInt (d / (1414 / 1000)) := by
    rw [pyInt, if_pos (div_nonneg hd (by norm_num))]
    exact Int.floor_nonneg.mpr (div_nonneg hd (by norm_num))
  rw [window_size_code]
  split_ifs <;> omega

lemma pyInt_crop (x : ℚ) (k : ℤ) (hk : 0 ≤ k) (hx : (k:ℚ) ≤ x) :
    pyInt (x + (k:ℚ)) - pyInt (x - (k:ℚ)) = 2 * k := by
  have h0 : (0:ℚ) ≤ (k:ℚ) := by exact_mod_cast hk
  have h1 : 0 ≤ x - (k:ℚ) := by linarith
  have h2 : 0 ≤ x + (k:ℚ) := by linarith
  rw [pyInt, if_pos h2, pyInt, if_pos h1, Int.floor_add_int, Int.floor_sub_int]
  ring

/-- C7 counterexample: for the bounding box `(0, 0, 1, 1)` the code computes
`int(1/1.414) = 0`, already even, so the stored window size is `0`; the
claim formula — diagonal `√2` divided by `√2`, i.e. `1`, rounded up to an
even integer — gives `2`.  The claim, as stated, is false at this input. -/
theorem window_size_counterexample :
    Option.map InitData.window_size (autotrackInit [⟨5, 5, 0, 0, 1, 1⟩]) = some 0 ∧
    spec_window_size 0 0 1 1 = 2 ∧
    ¬ ((0 : ℤ) = 2) := by
  refine ⟨?_, ?_, by decide⟩
  · show some (window_size_code ((1:ℚ) - 0)) = some 0
    rw [show (1:ℚ) - 0 = 1 by norm_num, ws_one]
  · rw [spec_window_size,
      show ((1:ℝ) - 0) ^ 2 + ((1:ℝ) - 0) ^ 2 = 2 by norm_num,
      div_self (Real.sqrt_ne_zero'.mpr (by norm_num) : Real.sqrt 2 ≠ 0)]
    have hc : ⌈(1:ℝ) / 2⌉ = 1 := by
      rw [Int.ceil_eq_iff]
      constructor <;> norm_num
    rw [hc]
    norm_num

/-- C7 amended: with exactly one detected feature the stored square crop
side is the bounding-box *height* divided by the float literal `1.414`,
truncated to an integer and then rounded up to an even integer (so it is
even and within one of the truncation), and the crop bounds
`img0[a1:b1, a2:b2]` describe a square of exactly that side centred (to
floor truncation) on the feature centroid; the initial shift is `(0, 0)`. -/
theorem window_size_amended (p : Feature) (hbb : 0 ≤ p.y2 - p.y1)
    (hcy : ((window_size_code (p.y2 - p.y1) / 2 : ℤ) : ℚ) ≤ p.cy)
    (hcx : ((window_size_code (p.y2 - p.y1) / 2 : ℤ) : ℚ) ≤ p.cx) :
    ∃ d : InitData, autotrackInit [p] = some d ∧
      d.window_size % 2 = 0 ∧
      pyInt ((p.y2 - p.y1) / (1414 / 1000)) ≤ d.window_size ∧
      d.window_size ≤ pyInt ((p.y2 - p.y1) / (1414 / 1000)) + 1 ∧
      d.b1 - d.a1 = d.window_size ∧
      d.b2 - d.a2 = d.window_size ∧
      d.crystal_pos = (p.cy, p.cx) ∧
      d.cc = (0, 0) := by
  have hk : 0 ≤ window_size_code (p.y2 - p.y1) / 2 :=
    Int.ediv_nonneg (window_size_code_nonneg _ hbb) (by norm_num)
  have hev := window_size_code_even (p.y2 - p.y1)
  refine ⟨_, rfl, window_size_code_even _, (window_size_code_bounds _).1,
    (window_size_code_bounds _).2, ?_, ?_, rfl, rfl⟩
  · show pyInt (p.cy + ((window_size_code (p.y2 - p.y1) / 2 : ℤ) : ℚ)) -
      pyInt (p.cy - ((window_size_code (p.y2 - p.y1) / 2 : ℤ) : ℚ)) =
      window_size_code (p.y2 - p.y1)
    rw [pyInt_crop p.cy _ hk hcy]
    omega
  · show pyInt (p.cx + ((window_size_code (p.y2 - p.y1) / 2 : ℤ) : ℚ)) -
      pyInt (p.cx - ((window_size_code (p.y2 - p.y1) / 2 : ℤ) : ℚ)) =
      window_size_code (p.y2 - p.y1)
    rw [pyInt_crop p.cx _ hk hcx]
    omega

lemma ws200 : window_size_code 200 = 142 := by
  have hq : (0:ℚ) ≤ 200 / (1414 / 1000) := by norm_num
  have hfl : pyInt ((200:ℚ) / (1414 / 1000)) = 141 := by
    rw [pyInt, if_pos hq, Int.floor_eq_iff]
    constructor <;> norm_num
  simp only [window_size_code, hfl]
  norm_num

/-- Witness for the amended C7 at the feature `p1` (bounding box height
200, centroid (500, 500)): window size `142`, even, and a 142×142 crop. -/
theorem window_size_amended_witness :
    ∃ d : InitData, autotrackInit [p1] = some d ∧ d.window_size % 2 = 0 ∧
      d.b1 - d.a1 = d.window_size ∧ d.b2 - d.a2 = d.window_size := by
  have hd : p1.y2 - p1.y1 = (200:ℚ) := by
    show (600:ℚ) - 400 = 200
    norm_num
  have hbb : (0:ℚ) ≤ p1.y2 - p1.y1 := by
    rw [hd]
    norm_num
  have hcy : ((window_size_code (p1.y2 - p1.y1) / 2 : ℤ) : ℚ) ≤ p1.cy := by
    rw [hd, ws200]
    show ((71:ℤ) : ℚ) ≤ 500
    norm_num
  have hcx : ((window_size_code (p1.y2 - p1.y1) / 2 : ℤ) : ℚ) ≤ p1.cx := by
    rw [hd, ws200]
    show ((71:ℤ) : ℚ) ≤ 500
    norm_num
  obtain ⟨d, hd1, hd2, _, _, hd5, hd6, _, _⟩ := window_size_amended p1 hbb hcy hcx
  exact ⟨d, hd1, hd2, hd5, hd6⟩

/-! ### Post-loop finalization (C8) -/

/-- What `start_collection` hands to `ImgConversion.ImgConversion` after
the loop: the diffraction-frame buffer, the derived camera length, the
oscillation angle, the angular range, the configured
`camera_rotation_vs_stage_xy` offset, and the average acquisition time. -/
structure ConvArgs where
  buffer : List ℕ
  camera_length : ℤ
  osangle : ℚ
  startangle : ℚ
  endangle : ℚ
  rotation_angle : ℚ
  acquisition_time : ℚ
deriving DecidableEq

/-- The post-loop frame count `nframes = i + 1` (the source comment notes
that `len(buffer)` can lie when frames were skipped, so the counter is
used instead). -/
def nframes_code (i : ℕ) : ℕ := i + 1

/-- The post-loop computation of `start_collection`: oscillation angle
`abs(endangle - startangle) / nframes`, average acquisition time
`(t1 - t0) / nframes`, and the hand-off record for the format-conversion
collaborator. -/
def finalize (st : AutoState) (startangle endangle : ℚ) (camera_length : ℤ)
    (rotation_angle : ℚ) (t0 t1 : ℚ) : ConvArgs :=
  { buffer := st.buffer
    camera_length := camera_length
    osangle := |endangle - startangle| / (nframes_code st.i : ℚ)
    startangle := startangle
    endangle := endangle
    rotation_angle := rotation_angle
    acquisition_time := (t1 - t0) / (nframes_code st.i : ℚ) }

/-- Environment for the C8 counterexample: four benign diffraction frames,
then the stop flag. -/
def c8Ins : List IterIn := [benignIn, benignIn, benignIn, benignIn, stopIn]

/-- C8 counterexample: a run that acquires exactly 4 frames (counter ends
at 5) reports the oscillation angle `|12 - 0| / (5 + 1) = 2`, not
`|12 - 0| / 4 = 3` as dividing by the number of frames acquired would
give.  The claim, as stated, is false at this input. -/
theorem osangle_counterexample :
    (finalize (runAuto 5 idM 1 0 0 ⟨1, [], [], (0, 0), []⟩ c8Ins).1
        0 12 300 0 0 6).osangle = 2 ∧
    (runAuto 5 idM 1 0 0 ⟨1, [], [], (0, 0), []⟩ c8Ins).1.buffer.length +
      (runAuto 5 idM 1 0 0 ⟨1, [], [], (0, 0), []⟩ c8Ins).1.image_buffer.length = 4 ∧
    |(12:ℚ) - 0| / (4:ℚ) = 3 ∧
    (2:ℚ) ≠ 3 := by
  have hi : (runAuto 5 idM 1 0 0 ⟨1, [], [], (0, 0), []⟩ c8Ins).1.i = 5 := by decide
  refine ⟨?_, by decide, ?_, by norm_num⟩
  · show |(12:ℚ) - 0| /
      (nframes_code (runAuto 5 idM 1 0 0 ⟨1, [], [], (0, 0), []⟩ c8Ins).1.i : ℚ) = 2
    rw [hi, abs_of_nonneg (by norm_num : (0:ℚ) ≤ 12 - 0)]
    norm_num [nframes_code]
  · rw [abs_of_nonneg (by norm_num : (0:ℚ) ≤ 12 - 0)]
    norm_num

/-- C8 amended: on a benign run of `n` frames the final counter is `n + 1`,
so the reported oscillation angle is `|endangle - startangle| / (n + 2)` —
the denominator `i + 1` exceeds by two the `i - 1` frames the counter
accounts for — and this value is handed to the format-conversion
collaborator together with the diffraction-frame buffer, the camera
length, the timing and the configured rotation-axis offset. -/
theorem osangle_amended (interval : ℕ) (tf : M2) (expt dfp dfd : ℚ) (bs0 : ℚ × ℚ)
    (l : List IterIn) (hb : benign l) (startangle endangle : ℚ) (camera_length : ℤ)
    (rotation_angle t0 t1 : ℚ) :
    (finalize (runAuto interval tf expt dfp dfd ⟨1, [], [], bs0, []⟩ l).1 startangle
        endangle camera_length rotation_angle t0 t1).osangle =
      |endangle - startangle| / ((l.length : ℚ) + 2) ∧
    (runAuto interval tf expt dfp dfd ⟨1, [], [], bs0, []⟩ l).1.buffer.length +
      (runAuto interval tf expt dfp dfd ⟨1, [], [], bs0, []⟩ l).1.image_buffer.length =
      l.length ∧
    (finalize (runAuto interval tf expt dfp dfd ⟨1, [], [], bs0, []⟩ l).1 startangle
        endangle camera_length rotation_angle t0 t1).buffer =
      (runAuto interval tf expt dfp dfd ⟨1, [], [], bs0, []⟩ l).1.buffer ∧
    (finalize (runAuto interval tf expt dfp dfd ⟨1, [], [], bs0, []⟩ l).1 startangle
        endangle camera_length rotation_angle t0 t1).camera_length = camera_length ∧
    (finalize (runAuto interval tf expt dfp dfd ⟨1, [], [], bs0, []⟩ l).1 startangle
        endangle camera_length rotation_angle t0 t1).rotation_angle = rotation_angle ∧
    (finalize (runAuto interval tf expt dfp dfd ⟨1, [], [], bs0, []⟩ l).1 startangle
        endangle camera_length rotation_angle t0 t1).acquisition_time =
      (t1 - t0) / ((l.length : ℚ) + 2) := by
  obtain ⟨_, g2, g3, g4, _⟩ :=
    runAuto_benign_run interval tf expt dfp dfd l hb ⟨1, [], [], bs0, []⟩
  have hn : ((nframes_code
      (runAuto interval tf expt dfp dfd ⟨1, [], [], bs0, []⟩ l).1.i : ℕ) : ℚ) =
      (l.length : ℚ) + 2 := by
    rw [nframes_code, g2]
    push_cast
    ring
  refine ⟨?_, ?_, rfl, rfl, rfl, ?_⟩
  · show |endangle - startangle| / ((nframes_code
      (runAuto interval tf expt dfp dfd ⟨1, [], [], bs0, []⟩ l).1.i : ℕ) : ℚ) = _
    rw [hn]
  · rw [g3, g4]
    have h := length_filter_add_length_filter_not (idxs 1 l.length)
      (fun j => j % interval == 0)
    rw [idxs_length] at h
    simp only [List.nil_append, List.length_nil]
    omega
  · show (t1 - t0) / ((nframes_code
      (runAuto interval tf expt dfp dfd ⟨1, [], [], bs0, []⟩ l).1.i : ℕ) : ℚ) = _
    rw [hn]

/-- Witness for the amended C8: four benign frames, rotation from 0 to 12
degrees, reported oscillation angle `12 / 6 = 2`. -/
theorem osangle_amended_witness :
    benign (List.replicate 4 benignIn) ∧
    (finalize (runAuto 5 idM 1 0 0 ⟨1, [], [], (0, 0), []⟩
        (List.replicate 4 benignIn)).1 0 12 300 0 0 6).osangle = 2 := by
  have hb : benign (List.replicate 4 benignIn) := by
    unfold benign
    decide
  refine ⟨hb, ?_⟩
  rw [(osangle_amended 5 idM 1 0 0 (0, 0) (List.replicate 4 benignIn) hb 0 12 300 0
    0 6).1, abs_of_nonneg (by norm_num : (0:ℚ) ≤ 12 - 0)]
  simp only [List.length_replicate]
  norm_num

end Instamatic
